import Mathlib

/-!
Verification of the FitnessCoach Xcode-manifest registration scripts.

The core operation is `add_files_to_xcode_project` in
`add_new_components_to_xcode.py`: it reads the project manifest text, walks a
list of (path, group) pairs, skips entries whose file does not exist on disk or
whose display name already occurs in the manifest text, renders four record
fragments for each remaining entry, and splices three of them into the text at
literal section markers before writing the file back.  (The group-membership
fragments are only accumulated and printed as hints.)

Strings are modelled as `List Char`; Python substring search (`in` / `find`)
is modelled by `findSub`.  The filesystem-existence check `os.path.exists`
becomes an oracle `fs : List Char → Bool`, and `uuid.uuid4`'s entropy becomes
a stream `ids : Nat → List Char` read at a running counter, so the number of
generator invocations is observable as the final counter value.
-/

namespace XcodeManifest

/-- Python `content.find(pat)` restricted to a found/not-found answer:
index of the first occurrence of `pat` in `s`, if any. -/
def findSub (pat : List Char) : List Char → Option Nat
  | [] => if pat.isPrefixOf ([] : List Char) then some 0 else none
  | c :: t => if pat.isPrefixOf (c :: t) then some 0 else (findSub pat t).map (· + 1)

/-- Python `content.find(pat, start)`: first occurrence at or after `start`. -/
def findSubFrom (s pat : List Char) (start : Nat) : Option Nat :=
  (findSub pat (s.drop start)).map (· + start)

/-- Python `content in`-test, `filename in content`: substring containment. -/
def containsSub (s pat : List Char) : Bool :=
  (findSub pat s).isSome

/-- Python `content[:pos] + frag + content[pos:]` for `0 ≤ pos ≤ len`. -/
def insertAt (s : List Char) (pos : Nat) (frag : List Char) : List Char :=
  s.take pos ++ frag ++ s.drop pos

/-- Python `'\n'.join(frags) + '\n'`. -/
def joinNL (frags : List (List Char)) : List Char :=
  List.intercalate ['\n'] frags ++ ['\n']

/-- `os.path.basename` for the slash-separated paths used here:
the segment after the last `/`. -/
def basename (p : List Char) : List Char :=
  p.foldl (fun acc c => if c = '/' then [] else acc ++ [c]) []

/-- The literal end marker of the PBXFileReference section (line 79). -/
def fileRefMarker : List Char := "/* End PBXFileReference section */".data

/-- The literal end marker of the PBXBuildFile section (line 85). -/
def buildFileMarker : List Char := "/* End PBXBuildFile section */".data

/-- The literal sources-build-phase marker (line 91). -/
def sourcesMarker : List Char := "/* Sources */,".data

/-- The literal opener of the build phase's file list (line 95). -/
def filesOpenMarker : List Char := "files = (".data

/-- The literal closer of the build phase's file list (line 97). -/
def closeParenMarker : List Char := ");".data

/-- The PBXFileReference record rendered at line 57 of the source. -/
def fileRefFragment (fileUUID filename : List Char) : List Char :=
  "\t\t".data ++ fileUUID ++ " /* ".data ++ filename ++
    " */ = \x7bisa = PBXFileReference; lastKnownFileType = sourcecode.swift; path = ".data ++
    filename ++ "; sourceTree = \"<group>\"; \x7d;".data

/-- The PBXBuildFile record rendered at line 61 of the source. -/
def buildFileFragment (buildUUID fileUUID filename : List Char) : List Char :=
  "\t\t".data ++ buildUUID ++ " /* ".data ++ filename ++
    " in Sources */ = \x7bisa = PBXBuildFile; fileRef = ".data ++ fileUUID ++
    " /* ".data ++ filename ++ " */; \x7d;".data

/-- The group-children list entry rendered at line 67 of the source. -/
def groupChildFragment (fileUUID filename : List Char) : List Char :=
  "\t\t\t\t".data ++ fileUUID ++ " /* ".data ++ filename ++ " */,".data

/-- The sources-build-phase list entry rendered at line 70 of the source. -/
def sourcesFragment (buildUUID filename : List Char) : List Char :=
  "\t\t\t\t".data ++ buildUUID ++ " /* ".data ++ filename ++ " in Sources */,".data

/-- One element of `files_to_add`: a (path, group) pair. -/
structure FileEntry where
  path : List Char
  group : List Char
deriving DecidableEq, Repr

/-- One line of the console report the loop prints per entry. -/
inductive ReportEntry where
  | warnedMissing (path : List Char)
  | skipped (filename : List Char)
  | registered (filename fileUUID buildUUID group : List Char)
deriving DecidableEq, Repr

/-- The accumulators built by the `for file_path, group_name in files_to_add`
loop: the four staged-fragment buffers, the per-entry report, and the final
value of the identity counter (the number of `generate_xcode_uuid` calls made
so far).  `groupChildren` keeps the source's `group_children` dict as the
sequence of (group, fragment) pairs in insertion order. -/
structure Staged where
  fileRefs : List (List Char)
  buildFiles : List (List Char)
  groupChildren : List (List Char × List Char)
  sourcesPhase : List (List Char)
  report : List ReportEntry
  counter : Nat
deriving DecidableEq, Repr

/-- The per-entry loop of `add_files_to_xcode_project` (lines 42-72): drop the
entry with a warning if the file does not exist; otherwise mint two identities
from the stream (lines 48-49, before the idempotence check), skip if the
display name already occurs in the original text (line 52), else stage the
four fragments. -/
def processEntries (ids : Nat → List Char) (fs : List Char → Bool)
    (content : List Char) : List FileEntry → Nat → Staged
  | [], k => ⟨[], [], [], [], [], k⟩
  | e :: rest, k =>
    if fs e.path then
      let n := basename e.path
      let fu := ids k
      let bu := ids (k + 1)
      if containsSub content n then
        let s := processEntries ids fs content rest (k + 2)
        { s with report := ReportEntry.skipped n :: s.report }
      else
        let s := processEntries ids fs content rest (k + 2)
        { fileRefs := fileRefFragment fu n :: s.fileRefs,
          buildFiles := buildFileFragment bu fu n :: s.buildFiles,
          groupChildren := (e.group, groupChildFragment fu n) :: s.groupChildren,
          sourcesPhase := sourcesFragment bu n :: s.sourcesPhase,
          report := ReportEntry.registered n fu bu e.group :: s.report,
          counter := s.counter }
    else
      let s := processEntries ids fs content rest k
      { s with report := ReportEntry.warnedMissing e.path :: s.report }

/-- Lines 78-82 and 84-88: if the section marker occurs, splice the joined
buffer immediately before its first occurrence; otherwise leave the text
unchanged (the source silently skips the insertion). -/
def insertBeforeMarker (content marker : List Char) (frags : List (List Char)) : List Char :=
  match findSub marker content with
  | some p => insertAt content p (joinNL frags)
  | none => content

/-- Lines 90-98: find `/* Sources */,`, then `files = (` after it, then `);`
after that, and splice before the `);`.  The source does not check
`end_bracket_pos` for `-1`; a failed find therefore behaves like Python's
slice at index `-1`, inserting just before the last character. -/
def insertSources (content : List Char) (frags : List (List Char)) : List Char :=
  match findSub sourcesMarker content with
  | none => content
  | some sp =>
    match findSubFrom content filesOpenMarker sp with
    | none => content
    | some fp =>
      match findSubFrom content closeParenMarker fp with
      | some ep => insertAt content ep (joinNL frags)
      | none =>
        content.take (content.length - 1) ++ joinNL frags ++
          content.drop (content.length - 1)

/-- Lines 78-98: the three splices applied sequentially to the evolving text. -/
def applyInsertions (content : List Char) (s : Staged) : List Char :=
  insertSources (insertBeforeMarker (insertBeforeMarker content fileRefMarker s.fileRefs)
    buildFileMarker s.buildFiles) s.sourcesPhase

/-- The result of one call: the final text, whether the file was rewritten
(lines 74-76 return before the write when nothing was staged), the report,
the group hints, and the number of identity-generator invocations. -/
structure RegisterResult where
  text : List Char
  wrote : Bool
  report : List ReportEntry
  groupChildren : List (List Char × List Char)
  used : Nat
deriving DecidableEq, Repr

/-- The whole of `add_files_to_xcode_project` on an explicit entry list:
process the entries against the original text, return early when no fragment
was staged (lines 74-76), otherwise apply the three splices and write. -/
def registerFiles (ids : Nat → List Char) (fs : List Char → Bool)
    (content : List Char) (entries : List FileEntry) : RegisterResult :=
  let s := processEntries ids fs content entries 0
  if s.fileRefs.isEmpty then
    ⟨content, false, s.report, s.groupChildren, s.counter⟩
  else
    ⟨applyInsertions content s, true, s.report, s.groupChildren, s.counter⟩

/-- Lowercase hexadecimal digit of a value below 16, as `"%x"` renders it. -/
def hexDigitLower (n : Nat) : Char :=
  if n < 10 then Char.ofNat (48 + n) else Char.ofNat (87 + n)

/-- Fixed-width big-endian lowercase hexadecimal rendering of a number. -/
def natToHexLower : Nat → Nat → List Char
  | 0, _ => []
  | w + 1, v => natToHexLower w (v / 16) ++ [hexDigitLower (v % 16)]

/-- `str(uuid.uuid4())` for the 128-bit value `v`: the 32 lowercase hex digits
grouped 8-4-4-4-12 with dashes. -/
def uuidCanonical (v : Nat) : List Char :=
  let d := natToHexLower 32 v
  d.take 8 ++ ['-'] ++ (d.drop 8).take 4 ++ ['-'] ++ (d.drop 12).take 4 ++ ['-'] ++
    (d.drop 16).take 4 ++ ['-'] ++ d.drop 20

/-- `generate_xcode_uuid` (lines 8-10 of both scripts), as a function of the
random 128-bit value drawn by `uuid.uuid4()`: uppercase the canonical string,
remove the dashes, keep the first 24 characters. -/
def generate_xcode_uuid (v : Nat) : List Char :=
  (((uuidCanonical v).map Char.toUpper).filter (fun c => c ≠ '-')).take 24

/-! ### Basic facts about the string primitives -/

theorem containsSub_iff (pat : List Char) :
    ∀ s, containsSub s pat = true ↔ pat <:+: s
  | [] => by
      cases pat <;> simp [containsSub, findSub, List.isPrefixOf]
  | c :: t => by
      by_cases h : pat.isPrefixOf (c :: t)
      · have hp : pat <+: c :: t := List.isPrefixOf_iff_prefix.mp h
        simp [containsSub, findSub, h, hp.isInfix]
      · have ih := containsSub_iff pat t
        have hp : ¬ pat <+: c :: t := fun hc => h (List.isPrefixOf_iff_prefix.mpr hc)
        simp [containsSub, findSub, h, List.infix_cons_iff, hp] at *
        exact ih

theorem findSub_eq_none (pat s : List Char) (h : ¬ pat <:+: s) :
    findSub pat s = none := by
  have := (containsSub_iff pat s).not.mpr h
  simp [containsSub, Option.isSome_iff_exists] at this
  cases hf : findSub pat s with
  | none => rfl
  | some p => exact absurd hf (this p)

theorem sublist_insertAt (s frag : List Char) (p : Nat) :
    s.Sublist (insertAt s p frag) := by
  unfold insertAt
  conv_lhs => rw [← List.take_append_drop p s]
  rw [List.append_assoc]
  exact (List.Sublist.refl _).append (List.sublist_append_right _ _)

theorem sublist_insertBeforeMarker (content marker : List Char) (frags : List (List Char)) :
    content.Sublist (insertBeforeMarker content marker frags) := by
  cases h : findSub marker content with
  | none => simp only [insertBeforeMarker, h]; exact List.Sublist.refl _
  | some p => simp only [insertBeforeMarker, h]; exact sublist_insertAt _ _ _

theorem sublist_insertSources (content : List Char) (frags : List (List Char)) :
    content.Sublist (insertSources content frags) := by
  cases h1 : findSub sourcesMarker content with
  | none => simp only [insertSources, h1]; exact List.Sublist.refl _
  | some sp =>
    cases h2 : findSubFrom content filesOpenMarker sp with
    | none => simp only [insertSources, h1, h2]; exact List.Sublist.refl _
    | some fp =>
      cases h3 : findSubFrom content closeParenMarker fp with
      | some ep => simp only [insertSources, h1, h2, h3]; exact sublist_insertAt _ _ _
      | none =>
        simp only [insertSources, h1, h2, h3]
        exact sublist_insertAt content (joinNL frags) (content.length - 1)

/-- C7: the updated manifest text differs from the input text only by
insertions: the whole input text survives, in order and unchanged, as a
(block-)subsequence of the output, whatever the entries, identity stream and
filesystem state are. -/
theorem output_extends_input_sublist (ids : Nat → List Char) (fs : List Char → Bool)
    (content : List Char) (entries : List FileEntry) :
    content.Sublist (registerFiles ids fs content entries).text := by
  unfold registerFiles
  dsimp only
  split
  · exact List.Sublist.refl _
  · exact ((sublist_insertBeforeMarker _ _ _).trans
      (sublist_insertBeforeMarker _ _ _)).trans (sublist_insertSources _ _)

/-! ### Entry processing when nothing is staged -/

theorem processEntries_fileRefs_nil (ids : Nat → List Char) (fs : List Char → Bool)
    (content : List Char) :
    ∀ (l : List FileEntry) (k : Nat),
      (∀ e ∈ l, fs e.path = false ∨ containsSub content (basename e.path) = true) →
      (processEntries ids fs content l k).fileRefs = []
  | [], _, _ => rfl
  | e :: rest, k, h => by
      have htail : ∀ x ∈ rest, fs x.path = false ∨ containsSub content (basename x.path) = true :=
        fun x hx => h x (List.mem_cons_of_mem _ hx)
      rcases h e (List.mem_cons_self _ _) with he | he
      · have ht := processEntries_fileRefs_nil ids fs content rest k htail
        simp [processEntries, he, ht]
      · by_cases hfs : fs e.path = true
        · have ht := processEntries_fileRefs_nil ids fs content rest (k + 2) htail
          simp [processEntries, hfs, he, ht]
        · have ht := processEntries_fileRefs_nil ids fs content rest k htail
          simp [processEntries, hfs, ht]

/-- C6: if every entry's display name already occurs as a substring of the
input text, the call stages nothing, the output text is exactly the input
text, and the file is not rewritten. -/
theorem noop_on_full_overlap (ids : Nat → List Char) (fs : List Char → Bool)
    (content : List Char) (entries : List FileEntry)
    (h : ∀ e ∈ entries, basename e.path <:+: content) :
    (registerFiles ids fs content entries).text = content ∧
      (registerFiles ids fs content entries).wrote = false := by
  have hnil : (processEntries ids fs content entries 0).fileRefs = [] :=
    processEntries_fileRefs_nil ids fs content entries 0
      (fun e he => Or.inr ((containsSub_iff _ _).mpr (h e he)))
  unfold registerFiles
  simp [hnil]

/-- C6 witness at a concrete overlapping input. -/
theorem noop_on_full_overlap_witness :
    (registerFiles (fun k => [Char.ofNat (65 + k)]) (fun _ => true)
        "A.swift".data [⟨"A.swift".data, "G".data⟩]).text = "A.swift".data ∧
      (registerFiles (fun k => [Char.ofNat (65 + k)]) (fun _ => true)
        "A.swift".data [⟨"A.swift".data, "G".data⟩]).wrote = false :=
  noop_on_full_overlap _ _ _ _ (by decide)

/-! ### Idempotence of the text output -/

/-- A manifest text whose build-phase file list ends in `(a);b`, so that the
first `);` found after `files = (` sits inside the occurrence of the display
name `a);b`. -/
def cexIdemText : List Char :=
  ("/* End PBXFileReference section */\n/* End PBXBuildFile section */\n" ++
    "/* Sources */, files = (a);b").data

/-- Two entries: one whose display name `a);b` already occurs in
`cexIdemText` (so it is skipped), one fresh entry that gets registered. -/
def cexIdemEntries : List FileEntry :=
  [⟨"a);b".data, "G".data⟩, ⟨"x.swift".data, "G".data⟩]

/-- A concrete identity stream of single distinct letters. -/
def letterIds : Nat → List Char :=
  fun k => [Char.ofNat (67 + k)]

set_option maxRecDepth 100000 in
/-- C5 counterexample: applying `registerFiles` to its own output with the
same entries does not return that output unchanged.  The splice into the
build-phase list lands inside the sole occurrence of the skipped entry's
display name `a);b`, so the second call no longer sees that name and
registers the entry, growing the text. -/
theorem registerFiles_not_idempotent_cex :
    (registerFiles letterIds (fun _ => true)
        (registerFiles letterIds (fun _ => true) cexIdemText cexIdemEntries).text
        cexIdemEntries).text ≠
      (registerFiles letterIds (fun _ => true) cexIdemText cexIdemEntries).text := by
  decide

/-- C5 amended: running the same entry set on the first call's output returns
that output unchanged provided each entry's display name still occurs in that
output (which the splice points can destroy only when a name straddles them,
as in the counterexample).  The second call may draw fresh identities. -/
theorem registerFiles_idempotent_of_names_present (ids ids2 : Nat → List Char)
    (fs : List Char → Bool) (content : List Char) (entries : List FileEntry)
    (h : ∀ e ∈ entries, fs e.path = true →
      basename e.path <:+: (registerFiles ids fs content entries).text) :
    (registerFiles ids2 fs (registerFiles ids fs content entries).text entries).text =
      (registerFiles ids fs content entries).text := by
  have hnil : (processEntries ids2 fs (registerFiles ids fs content entries).text
      entries 0).fileRefs = [] := by
    refine processEntries_fileRefs_nil ids2 fs _ entries 0 (fun e he => ?_)
    by_cases hfs : fs e.path = true
    · exact Or.inr ((containsSub_iff _ _).mpr (h e he hfs))
    · exact Or.inl (by simpa using hfs)
  conv_lhs => rw [registerFiles]
  simp [hnil]

set_option maxRecDepth 100000 in
/-- C5 amended witness: a normal registration scenario in which every display
name survives into the output, so the second call is a no-op. -/
theorem registerFiles_idempotent_of_names_present_witness :
    (registerFiles letterIds (fun _ => true)
        (registerFiles letterIds (fun _ => true)
          ("/* End PBXFileReference section */\n/* End PBXBuildFile section */\n" ++
            "/* Sources */, files = (\n);").data
          [⟨"A.swift".data, "G".data⟩]).text
        [⟨"A.swift".data, "G".data⟩]).text =
      (registerFiles letterIds (fun _ => true)
        ("/* End PBXFileReference section */\n/* End PBXBuildFile section */\n" ++
          "/* Sources */, files = (\n);").data
        [⟨"A.swift".data, "G".data⟩]).text :=
  registerFiles_idempotent_of_names_present _ _ _ _ _ (by decide)

/-! ### Behaviour when a record-section marker is missing -/

theorem insertBeforeMarker_of_not_found (content marker : List Char)
    (frags : List (List Char)) (h : ¬ marker <:+: content) :
    insertBeforeMarker content marker frags = content := by
  simp only [insertBeforeMarker, findSub_eq_none marker content h]

/-- A manifest text that lacks both record-section end markers but still has
a locatable build-phase file list. -/
def cexNoMarkerText : List Char := "/* Sources */, files = (\n);".data

set_option maxRecDepth 100000 in
/-- C1 counterexample: with both record-section end markers absent and one
fresh entry staged, the call does not abort; the file is still written and
the persisted text differs from the input (the build-phase splice still
happened), contradicting the claimed all-or-nothing behaviour. -/
theorem missingMarkers_still_writes_cex :
    (registerFiles letterIds (fun _ => true) cexNoMarkerText
        [⟨"A.swift".data, "G".data⟩]).wrote = true ∧
      (registerFiles letterIds (fun _ => true) cexNoMarkerText
        [⟨"A.swift".data, "G".data⟩]).text ≠ cexNoMarkerText ∧
      ¬ fileRefMarker <:+: cexNoMarkerText ∧ ¬ buildFileMarker <:+: cexNoMarkerText := by
  decide

/-- C1 amended: a missing record-section marker never aborts the call.
Whenever at least one entry was staged the manifest is written (first
conjunct, with no marker hypothesis at all), and the marker that cannot be
located in the text its search actually runs against — the original text for
the file-reference splice, the once-spliced text for the build-file splice —
costs only its own splice, the others still being applied: if the
file-reference marker is absent from the input, the output is the input with
just the build-file and build-phase splices; if the build-file marker cannot
be found at its turn, the output is the input with just the file-reference
and build-phase splices; if both record markers are absent from the input,
only the build-phase splice is applied. -/
theorem missingMarkers_no_abort (ids : Nat → List Char) (fs : List Char → Bool)
    (content : List Char) (entries : List FileEntry)
    (h3 : (processEntries ids fs content entries 0).fileRefs ≠ []) :
    (registerFiles ids fs content entries).wrote = true ∧
      (¬ fileRefMarker <:+: content →
        (registerFiles ids fs content entries).text =
          insertSources
            (insertBeforeMarker content buildFileMarker
              (processEntries ids fs content entries 0).buildFiles)
            (processEntries ids fs content entries 0).sourcesPhase) ∧
      (¬ buildFileMarker <:+:
          insertBeforeMarker content fileRefMarker
            (processEntries ids fs content entries 0).fileRefs →
        (registerFiles ids fs content entries).text =
          insertSources
            (insertBeforeMarker content fileRefMarker
              (processEntries ids fs content entries 0).fileRefs)
            (processEntries ids fs content entries 0).sourcesPhase) ∧
      (¬ fileRefMarker <:+: content → ¬ buildFileMarker <:+: content →
        (registerFiles ids fs content entries).text =
          insertSources content (processEntries ids fs content entries 0).sourcesPhase) := by
  unfold registerFiles
  dsimp only
  simp only [List.isEmpty_eq_true, if_neg h3]
  refine ⟨trivial, ?_, ?_, ?_⟩
  · intro h1
    rw [applyInsertions, insertBeforeMarker_of_not_found _ _ _ h1]
  · intro h2
    rw [applyInsertions, insertBeforeMarker_of_not_found _ _ _ h2]
  · intro h1 h2
    rw [applyInsertions, insertBeforeMarker_of_not_found _ _ _ h1,
      insertBeforeMarker_of_not_found _ _ _ h2]

/-- A manifest text in which only the file-reference end marker is missing:
the build-file marker and the build-phase list are present. -/
def cexOneMarkerText : List Char :=
  "/* End PBXBuildFile section */\n/* Sources */, files = (\n);".data

set_option maxRecDepth 100000 in
/-- C1 amended witness, exercising a single-marker-absent case: with only
the file-reference marker missing, the call still writes, and the output is
the input with the build-file and build-phase splices applied. -/
theorem missingMarkers_no_abort_witness :
    (registerFiles letterIds (fun _ => true) cexOneMarkerText
        [⟨"A.swift".data, "G".data⟩]).wrote = true ∧
      (registerFiles letterIds (fun _ => true) cexOneMarkerText
        [⟨"A.swift".data, "G".data⟩]).text =
        insertSources
          (insertBeforeMarker cexOneMarkerText buildFileMarker
            (processEntries letterIds (fun _ => true) cexOneMarkerText
              [⟨"A.swift".data, "G".data⟩] 0).buildFiles)
          (processEntries letterIds (fun _ => true) cexOneMarkerText
            [⟨"A.swift".data, "G".data⟩] 0).sourcesPhase :=
  ⟨(missingMarkers_no_abort letterIds (fun _ => true) cexOneMarkerText
      [⟨"A.swift".data, "G".data⟩] (by decide)).1,
    (missingMarkers_no_abort letterIds (fun _ => true) cexOneMarkerText
      [⟨"A.swift".data, "G".data⟩] (by decide)).2.1 (by decide)⟩

theorem containsSub_eq_false (s pat : List Char) (h : ¬ pat <:+: s) :
    containsSub s pat = false := by
  cases hc : containsSub s pat
  · rfl
  · exact absurd ((containsSub_iff pat s).mp hc) h

/-! ### Group names never reach the manifest text -/

theorem processEntries_group_irrel (ids : Nat → List Char) (fs : List Char → Bool)
    (content : List Char) (g : List Char) :
    ∀ (l : List FileEntry) (k : Nat),
      (processEntries ids fs content (l.map fun e => FileEntry.mk e.path g) k).fileRefs =
          (processEntries ids fs content l k).fileRefs ∧
        (processEntries ids fs content (l.map fun e => FileEntry.mk e.path g) k).buildFiles =
          (processEntries ids fs content l k).buildFiles ∧
        (processEntries ids fs content (l.map fun e => FileEntry.mk e.path g) k).sourcesPhase =
          (processEntries ids fs content l k).sourcesPhase ∧
        (processEntries ids fs content (l.map fun e => FileEntry.mk e.path g) k).counter =
          (processEntries ids fs content l k).counter
  | [], _ => ⟨rfl, rfl, rfl, rfl⟩
  | e :: rest, k => by
      by_cases hfs : fs e.path = true
      · by_cases hc : containsSub content (basename e.path) = true
        · obtain ⟨i1, i2, i3, i4⟩ := processEntries_group_irrel ids fs content g rest (k + 2)
          simp [processEntries, hfs, hc, i1, i2, i3, i4]
        · obtain ⟨i1, i2, i3, i4⟩ := processEntries_group_irrel ids fs content g rest (k + 2)
          simp [processEntries, hfs, hc, i1, i2, i3, i4]
      · obtain ⟨i1, i2, i3, i4⟩ := processEntries_group_irrel ids fs content g rest k
        simp [processEntries, hfs, i1, i2, i3, i4]

/-- C2 amended: the manifest text produced by a call never depends on the
entries' group names — replacing every entry's group by an arbitrary name
leaves the output text and the write decision unchanged, because
group-membership fragments are only accumulated for the console hints and
are never spliced into the text. -/
theorem text_ignores_groups (ids : Nat → List Char) (fs : List Char → Bool)
    (content : List Char) (entries : List FileEntry) (g : List Char) :
    (registerFiles ids fs content (entries.map fun e => FileEntry.mk e.path g)).text =
        (registerFiles ids fs content entries).text ∧
      (registerFiles ids fs content (entries.map fun e => FileEntry.mk e.path g)).wrote =
        (registerFiles ids fs content entries).wrote := by
  obtain ⟨i1, i2, i3, i4⟩ := processEntries_group_irrel ids fs content g entries 0
  unfold registerFiles applyInsertions
  simp only [i1, i2, i3]
  split <;> exact ⟨rfl, rfl⟩

/-- A manifest text holding both record markers, a group record whose name is
`Components` with a locatable children list, and a build-phase file list. -/
def cexGroupText : List Char :=
  ("/* End PBXFileReference section */\n/* End PBXBuildFile section */\n" ++
    "ABCDEF /* Components */ = \x7bisa = PBXGroup; children = (\n); " ++
    "name = Components; \x7d;\n/* Sources */, files = (\n);").data

set_option maxRecDepth 100000 in
/-- C2 counterexample: registering one fresh entry aimed at the existing
group `Components` yields a `Registered` report, but the group-membership
fragment for the minted file-reference identity is nowhere in the updated
text — it is only returned among the console hints. -/
theorem groupFragment_not_inserted_cex :
    (registerFiles letterIds (fun _ => true) cexGroupText
          [⟨"New.swift".data, "Components".data⟩]).report =
        [ReportEntry.registered "New.swift".data (letterIds 0) (letterIds 1)
          "Components".data] ∧
      containsSub
        (registerFiles letterIds (fun _ => true) cexGroupText
          [⟨"New.swift".data, "Components".data⟩]).text
        (groupChildFragment (letterIds 0) "New.swift".data) = false ∧
      containsSub
        (registerFiles letterIds (fun _ => true) cexGroupText
          [⟨"New.swift".data, "Components".data⟩]).text
        (fileRefFragment (letterIds 0) "New.swift".data) = true ∧
      containsSub
        (registerFiles letterIds (fun _ => true) cexGroupText
          [⟨"New.swift".data, "Components".data⟩]).text
        (buildFileFragment (letterIds 1) (letterIds 0) "New.swift".data) = true ∧
      containsSub
        (registerFiles letterIds (fun _ => true) cexGroupText
          [⟨"New.swift".data, "Components".data⟩]).text
        (sourcesFragment (letterIds 1) "New.swift".data) = true ∧
      (registerFiles letterIds (fun _ => true) cexGroupText
          [⟨"New.swift".data, "Components".data⟩]).groupChildren =
        [("Components".data, groupChildFragment (letterIds 0) "New.swift".data)] := by
  decide

/-! ### The idempotence check consults only the original text -/

/-- C3 amended: the skip decision for an entry looks only at the input
manifest text, never at fragments staged earlier in the same call: two
entries that both exist on disk and whose display names are both absent from
the input text are both registered — even if the two display names are equal
— each with its own pair of freshly minted identities. -/
theorem idempotence_check_ignores_staged (ids : Nat → List Char) (fs : List Char → Bool)
    (content : List Char) (e1 e2 : FileEntry)
    (h1 : fs e1.path = true) (h2 : fs e2.path = true)
    (h3 : ¬ basename e1.path <:+: content) (h4 : ¬ basename e2.path <:+: content) :
    (registerFiles ids fs content [e1, e2]).report =
      [ReportEntry.registered (basename e1.path) (ids 0) (ids 1) e1.group,
       ReportEntry.registered (basename e2.path) (ids 2) (ids 3) e2.group] := by
  simp [registerFiles, processEntries, h1, h2,
    containsSub_eq_false _ _ h3, containsSub_eq_false _ _ h4]

/-- C3 amended witness: two same-named entries in one call are both
registered. -/
theorem idempotence_check_ignores_staged_witness :
    (registerFiles letterIds (fun _ => true) cexNoMarkerText
        [⟨"A.swift".data, "G".data⟩, ⟨"A.swift".data, "H".data⟩]).report =
      [ReportEntry.registered "A.swift".data (letterIds 0) (letterIds 1) "G".data,
       ReportEntry.registered "A.swift".data (letterIds 2) (letterIds 3) "H".data] :=
  idempotence_check_ignores_staged _ _ _ _ _ (by decide) (by decide) (by decide) (by decide)

/-- A manifest text with both record markers and a build-phase list, not
containing the name `A.swift`. -/
def cexDupText : List Char :=
  ("/* End PBXFileReference section */\n/* End PBXBuildFile section */\n" ++
    "/* Sources */, files = (\n);").data

set_option maxRecDepth 100000 in
/-- C3 counterexample: a single call with two entries of the same display
name, absent from the input text, registers both — the report shows two
`Registered` outcomes and the output text carries two distinct file-identity
fragments for that one display name. -/
theorem duplicate_names_both_registered_cex :
    (registerFiles letterIds (fun _ => true) cexDupText
          [⟨"A.swift".data, "G".data⟩, ⟨"A.swift".data, "H".data⟩]).report =
        [ReportEntry.registered "A.swift".data (letterIds 0) (letterIds 1) "G".data,
         ReportEntry.registered "A.swift".data (letterIds 2) (letterIds 3) "H".data] ∧
      containsSub
        (registerFiles letterIds (fun _ => true) cexDupText
          [⟨"A.swift".data, "G".data⟩, ⟨"A.swift".data, "H".data⟩]).text
        (fileRefFragment (letterIds 0) "A.swift".data) = true ∧
      containsSub
        (registerFiles letterIds (fun _ => true) cexDupText
          [⟨"A.swift".data, "G".data⟩, ⟨"A.swift".data, "H".data⟩]).text
        (fileRefFragment (letterIds 2) "A.swift".data) = true ∧
      letterIds 0 ≠ letterIds 2 := by
  decide

/-! ### Identities are minted before the idempotence check -/

/-- C4 amended: an entry whose display name already occurs in the input text
is skipped with no fragments staged and nothing inserted for it, but the two
identities are still drawn from the generator first (lines 48-49 precede the
check at line 52): the counter advances by 2 across the skipped entry. -/
theorem skipped_entry_emits_nothing_but_mints (ids : Nat → List Char)
    (fs : List Char → Bool) (content : List Char) (e : FileEntry)
    (rest : List FileEntry) (k : Nat)
    (h1 : fs e.path = true) (h2 : basename e.path <:+: content) :
    processEntries ids fs content (e :: rest) k =
      { processEntries ids fs content rest (k + 2) with
        report := ReportEntry.skipped (basename e.path) ::
          (processEntries ids fs content rest (k + 2)).report } := by
  have hc := (containsSub_iff _ _).mpr h2
  simp [processEntries, h1, hc]

/-- C4 amended witness: one skipped entry advances the counter from 0 to 2. -/
theorem skipped_entry_emits_nothing_but_mints_witness :
    processEntries letterIds (fun _ => true) "A.swift".data
        [⟨"A.swift".data, "G".data⟩] 0 =
      { processEntries letterIds (fun _ => true) "A.swift".data [] 2 with
        report := ReportEntry.skipped "A.swift".data ::
          (processEntries letterIds (fun _ => true) "A.swift".data [] 2).report } :=
  skipped_entry_emits_nothing_but_mints _ _ _ _ _ _ (by decide) (by decide)

/-- C4 counterexample: a call with one already-present entry skips it and
emits nothing, yet the identity generator has been invoked twice (`used`
counts the `generate_xcode_uuid` calls), not zero times as the claim's
no-invocation property requires. -/
theorem skipped_entry_mints_ids_cex :
    (registerFiles letterIds (fun _ => true) "A.swift".data
          [⟨"A.swift".data, "G".data⟩]).used = 2 ∧
      (registerFiles letterIds (fun _ => true) "A.swift".data
          [⟨"A.swift".data, "G".data⟩]).report = [ReportEntry.skipped "A.swift".data] ∧
      (registerFiles letterIds (fun _ => true) "A.swift".data
          [⟨"A.swift".data, "G".data⟩]).text = "A.swift".data ∧
      (registerFiles letterIds (fun _ => true) "A.swift".data
          [⟨"A.swift".data, "G".data⟩]).wrote = false := by
  decide

/-! ### Shape of the generated identities -/

/-- The sixteen characters `%x` can produce. -/
def lowerHexChars : List Char := "0123456789abcdef".data

/-- Uppercase hexadecimal digits, the token alphabet of the manifest. -/
def isUpperHexDigit (c : Char) : Bool :=
  (('0' ≤ c) && (c ≤ '9')) || (('A' ≤ c) && (c ≤ 'F'))

theorem hexDigitLower_mem : ∀ n < 16, hexDigitLower n ∈ lowerHexChars := by
  decide

theorem natToHexLower_length : ∀ (w v : Nat), (natToHexLower w v).length = w
  | 0, _ => rfl
  | w + 1, v => by
      simp [natToHexLower, natToHexLower_length w (v / 16)]

theorem natToHexLower_mem : ∀ (w v : Nat), ∀ c ∈ natToHexLower w v, c ∈ lowerHexChars
  | 0, _, c, h => by simp [natToHexLower] at h
  | w + 1, v, c, h => by
      have h' : c ∈ natToHexLower w (v / 16) ∨ c = hexDigitLower (v % 16) := by
        simpa [natToHexLower] using h
      rcases h' with h' | h'
      · exact natToHexLower_mem w (v / 16) c h'
      · subst h'
        exact hexDigitLower_mem _ (Nat.mod_lt _ (by norm_num))

theorem toUpper_lowerHex_ne_dash : ∀ c ∈ lowerHexChars, Char.toUpper c ≠ '-' := by
  decide

theorem toUpper_lowerHex_isUpper : ∀ c ∈ lowerHexChars, isUpperHexDigit (Char.toUpper c) = true := by
  decide

theorem filter_map_toUpper_hex (l : List Char) (h : ∀ c ∈ l, c ∈ lowerHexChars) :
    (l.map Char.toUpper).filter (fun c => c ≠ '-') = l.map Char.toUpper := by
  refine List.filter_eq_self.mpr ?_
  intro a ha
  obtain ⟨c, hc, rfl⟩ := List.mem_map.mp ha
  simpa using toUpper_lowerHex_ne_dash c (h c hc)

theorem hex_segments_reassemble (d : List Char) :
    d.take 8 ++ ((d.drop 8).take 4 ++ ((d.drop 12).take 4 ++
      ((d.drop 16).take 4 ++ d.drop 20))) = d := by
  have h20 : d.drop 20 = (d.drop 16).drop 4 := by
    rw [List.drop_drop]
  have h16 : d.drop 16 = (d.drop 12).drop 4 := by
    rw [List.drop_drop]
  have h12 : d.drop 12 = (d.drop 8).drop 4 := by
    rw [List.drop_drop]
  rw [h20, List.take_append_drop, h16, List.take_append_drop, h12,
    List.take_append_drop, List.take_append_drop]

theorem uuid_filter_eq (v : Nat) :
    (((uuidCanonical v).map Char.toUpper).filter (fun c => c ≠ '-')) =
      (natToHexLower 32 v).map Char.toUpper := by
  have hmem := natToHexLower_mem 32 v
  have htake : ∀ n m : Nat,
      List.filter (fun c => c ≠ '-')
          (List.map Char.toUpper (List.take n (List.drop m (natToHexLower 32 v)))) =
        List.map Char.toUpper (List.take n (List.drop m (natToHexLower 32 v))) := by
    intro n m
    refine filter_map_toUpper_hex _ (fun c hc => ?_)
    exact hmem c (List.mem_of_mem_drop (List.mem_of_mem_take hc))
  have htake0 : ∀ n : Nat,
      List.filter (fun c => c ≠ '-')
          (List.map Char.toUpper (List.take n (natToHexLower 32 v))) =
        List.map Char.toUpper (List.take n (natToHexLower 32 v)) := by
    intro n
    refine filter_map_toUpper_hex _ (fun c hc => ?_)
    exact hmem c (List.mem_of_mem_take hc)
  have hdrop : ∀ m : Nat,
      List.filter (fun c => c ≠ '-')
          (List.map Char.toUpper (List.drop m (natToHexLower 32 v))) =
        List.map Char.toUpper (List.drop m (natToHexLower 32 v)) := by
    intro m
    refine filter_map_toUpper_hex _ (fun c hc => ?_)
    exact hmem c (List.mem_of_mem_drop hc)
  have hdash : (['-'].map Char.toUpper).filter (fun c : Char => c ≠ '-') = [] := by
    decide
  calc (((uuidCanonical v).map Char.toUpper).filter (fun c => c ≠ '-'))
      = ((natToHexLower 32 v).take 8).map Char.toUpper ++
        (((natToHexLower 32 v).drop 8).take 4).map Char.toUpper ++
        (((natToHexLower 32 v).drop 12).take 4).map Char.toUpper ++
        (((natToHexLower 32 v).drop 16).take 4).map Char.toUpper ++
        ((natToHexLower 32 v).drop 20).map Char.toUpper := by
        simp only [uuidCanonical, List.map_append, List.filter_append, hdash,
          htake, htake0, hdrop, List.append_nil, List.nil_append]
    _ = (natToHexLower 32 v).map Char.toUpper := by
        rw [← List.map_append, ← List.map_append, ← List.map_append, ← List.map_append]
        rw [List.append_assoc, List.append_assoc, List.append_assoc]
        rw [hex_segments_reassemble]

/-- C8: every identity the generator can produce — for any value of the
underlying 128-bit random draw — is exactly 24 characters long and consists
only of uppercase hexadecimal digits, with no separators. -/
theorem generate_xcode_uuid_spec (v : Nat) :
    (generate_xcode_uuid v).length = 24 ∧
      (generate_xcode_uuid v).all isUpperHexDigit = true := by
  have hq := uuid_filter_eq v
  constructor
  · rw [generate_xcode_uuid, hq, List.length_take, List.length_map,
      natToHexLower_length]
    omega
  · rw [generate_xcode_uuid, hq]
    refine List.all_eq_true.mpr (fun a ha => ?_)
    obtain ⟨c, hc, rfl⟩ := List.mem_map.mp (List.mem_of_mem_take ha)
    exact toUpper_lowerHex_isUpper c (natToHexLower_mem 32 v c hc)

/-! ### Uniqueness of the minted identities -/

/-- The identities recorded in a report's `Registered` outcomes, in order:
one FileReferenceID and one BuildActionID per registered entry. -/
def reportIds : List ReportEntry → List (List Char)
  | [] => []
  | ReportEntry.registered _ fu bu _ :: rest => fu :: bu :: reportIds rest
  | ReportEntry.skipped _ :: rest => reportIds rest
  | ReportEntry.warnedMissing _ :: rest => reportIds rest

theorem reportIds_processEntries (ids : Nat → List Char)
    (hinj : Function.Injective ids) (fs : List Char → Bool) (content : List Char) :
    ∀ (l : List FileEntry) (k : Nat),
      (reportIds (processEntries ids fs content l k).report).Nodup ∧
        ∀ x ∈ reportIds (processEntries ids fs content l k).report,
          ∃ i, k ≤ i ∧ x = ids i
  | [], k => by simp [processEntries, reportIds]
  | e :: rest, k => by
      by_cases hfs : fs e.path = true
      · by_cases hc : containsSub content (basename e.path) = true
        · obtain ⟨ih1, ih2⟩ := reportIds_processEntries ids hinj fs content rest (k + 2)
          constructor
          · simpa [processEntries, hfs, hc, reportIds] using ih1
          · intro x hx
            obtain ⟨i, hi, hxi⟩ := ih2 x (by simpa [processEntries, hfs, hc, reportIds] using hx)
            exact ⟨i, by omega, hxi⟩
        · obtain ⟨ih1, ih2⟩ := reportIds_processEntries ids hinj fs content rest (k + 2)
          have hrep : reportIds (processEntries ids fs content (e :: rest) k).report =
              ids k :: ids (k + 1) ::
                reportIds (processEntries ids fs content rest (k + 2)).report := by
            simp [processEntries, hfs, hc, reportIds]
          constructor
          · rw [hrep]
            refine List.nodup_cons.mpr ⟨?_, List.nodup_cons.mpr ⟨?_, ih1⟩⟩
            · intro hmem
              rcases List.mem_cons.mp hmem with heq | hmem'
              · have := hinj heq
                omega
              · obtain ⟨i, hi, hxi⟩ := ih2 _ hmem'
                have := hinj hxi.symm
                omega
            · intro hmem
              obtain ⟨i, hi, hxi⟩ := ih2 _ hmem
              have := hinj hxi.symm
              omega
          · intro x hx
            rw [hrep] at hx
            rcases List.mem_cons.mp hx with rfl | hx'
            · exact ⟨k, Nat.le_refl _, rfl⟩
            rcases List.mem_cons.mp hx' with rfl | hx''
            · exact ⟨k + 1, by omega, rfl⟩
            · obtain ⟨i, hi, hxi⟩ := ih2 x hx''
              exact ⟨i, by omega, hxi⟩
      · obtain ⟨ih1, ih2⟩ := reportIds_processEntries ids hinj fs content rest k
        constructor
        · simpa [processEntries, hfs, reportIds] using ih1
        · intro x hx
          exact ih2 x (by simpa [processEntries, hfs, reportIds] using hx)

/-- C9: assuming the entropy source never repeats a token (the spec's own
collision-resistance assumption for `uuid.uuid4`), all identities minted in
one call — two per processed entry, indices `0` to `used - 1` of the stream —
are pairwise distinct, and in particular the FileReferenceID/BuildActionID
pairs recorded for the registered entries never collide. -/
theorem minted_ids_nodup (ids : Nat → List Char) (fs : List Char → Bool)
    (content : List Char) (entries : List FileEntry)
    (hinj : Function.Injective ids) :
    ((List.range (registerFiles ids fs content entries).used).map ids).Nodup ∧
      (reportIds (registerFiles ids fs content entries).report).Nodup := by
  constructor
  · exact (List.nodup_range _).map hinj
  · have h := (reportIds_processEntries ids hinj fs content entries 0).1
    unfold registerFiles
    dsimp only
    split
    · exact h
    · exact h

/-- A concrete injective identity stream. -/
def replicateIds : Nat → List Char := fun k => List.replicate k 'A'

theorem replicateIds_injective : Function.Injective replicateIds := by
  intro i j h
  simpa [replicateIds] using congrArg List.length h

/-- C9 witness at a concrete call with one skipped and one registered entry. -/
theorem minted_ids_nodup_witness :
    ((List.range (registerFiles replicateIds (fun _ => true) cexDupText
          [⟨"A.swift".data, "G".data⟩, ⟨"B.swift".data, "G".data⟩]).used).map
        replicateIds).Nodup ∧
      (reportIds (registerFiles replicateIds (fun _ => true) cexDupText
          [⟨"A.swift".data, "G".data⟩, ⟨"B.swift".data, "G".data⟩]).report).Nodup :=
  minted_ids_nodup _ _ _ _ replicateIds_injective

/-! ### Entries whose file does not exist are dropped before anything else -/

theorem processEntries_drop_entry (ids : Nat → List Char) (fs : List Char → Bool)
    (content : List Char) (e : FileEntry) (post : List FileEntry)
    (h : fs e.path = false) :
    ∀ (pre : List FileEntry) (k : Nat),
      processEntries ids fs content (pre ++ e :: post) k =
        { processEntries ids fs content (pre ++ post) k with
          report :=
            (processEntries ids fs content (pre ++ post) k).report.take pre.length ++
              ReportEntry.warnedMissing e.path ::
                (processEntries ids fs content (pre ++ post) k).report.drop pre.length }
  | [], k => by
      simp [processEntries, h]
  | a :: pre, k => by
      by_cases hfs : fs a.path = true
      · by_cases hc : containsSub content (basename a.path) = true
        · have ih := processEntries_drop_entry ids fs content e post h pre (k + 2)
          simp [processEntries, hfs, hc, ih]
        · have ih := processEntries_drop_entry ids fs content e post h pre (k + 2)
          simp [processEntries, hfs, hc, ih]
      · have ih := processEntries_drop_entry ids fs content e post h pre k
        simp [processEntries, hfs, ih]

/-- C10: an entry whose path fails the filesystem-existence check is dropped
before identities are minted and before the idempotence check: relative to
the same call without it, the output text, the write decision, the number of
generator invocations, and the group hints are all identical, and the report
only gains one `warnedMissing` line at the entry's position. -/
theorem nonexistent_path_dropped (ids : Nat → List Char) (fs : List Char → Bool)
    (content : List Char) (pre : List FileEntry) (e : FileEntry)
    (post : List FileEntry) (h : fs e.path = false) :
    (registerFiles ids fs content (pre ++ e :: post)).text =
        (registerFiles ids fs content (pre ++ post)).text ∧
      (registerFiles ids fs content (pre ++ e :: post)).wrote =
        (registerFiles ids fs content (pre ++ post)).wrote ∧
      (registerFiles ids fs content (pre ++ e :: post)).used =
        (registerFiles ids fs content (pre ++ post)).used ∧
      (registerFiles ids fs content (pre ++ e :: post)).groupChildren =
        (registerFiles ids fs content (pre ++ post)).groupChildren ∧
      (registerFiles ids fs content (pre ++ e :: post)).report =
        (registerFiles ids fs content (pre ++ post)).report.take pre.length ++
          ReportEntry.warnedMissing e.path ::
            (registerFiles ids fs content (pre ++ post)).report.drop pre.length := by
  have hd := processEntries_drop_entry ids fs content e post h pre 0
  unfold registerFiles
  rw [hd]
  dsimp only
  split
  · exact ⟨rfl, rfl, rfl, rfl, rfl⟩
  · exact ⟨rfl, rfl, rfl, rfl, rfl⟩

/-- A concrete filesystem oracle on which exactly `gone.swift` is missing. -/
def fsWithoutGone : List Char → Bool := fun p => !(p == "gone.swift".data)

set_option maxRecDepth 100000 in
/-- C10 witness: dropping the missing middle entry of three leaves text,
write flag, identity usage and group hints as in the two-entry call. -/
theorem nonexistent_path_dropped_witness :
    (registerFiles letterIds fsWithoutGone cexDupText
          ([⟨"A.swift".data, "G".data⟩] ++ ⟨"gone.swift".data, "G".data⟩ ::
            [⟨"B.swift".data, "H".data⟩])).text =
        (registerFiles letterIds fsWithoutGone cexDupText
          ([⟨"A.swift".data, "G".data⟩] ++ [⟨"B.swift".data, "H".data⟩])).text ∧
      (registerFiles letterIds fsWithoutGone cexDupText
          ([⟨"A.swift".data, "G".data⟩] ++ ⟨"gone.swift".data, "G".data⟩ ::
            [⟨"B.swift".data, "H".data⟩])).wrote =
        (registerFiles letterIds fsWithoutGone cexDupText
          ([⟨"A.swift".data, "G".data⟩] ++ [⟨"B.swift".data, "H".data⟩])).wrote ∧
      (registerFiles letterIds fsWithoutGone cexDupText
          ([⟨"A.swift".data, "G".data⟩] ++ ⟨"gone.swift".data, "G".data⟩ ::
            [⟨"B.swift".data, "H".data⟩])).used =
        (registerFiles letterIds fsWithoutGone cexDupText
          ([⟨"A.swift".data, "G".data⟩] ++ [⟨"B.swift".data, "H".data⟩])).used ∧
      (registerFiles letterIds fsWithoutGone cexDupText
          ([⟨"A.swift".data, "G".data⟩] ++ ⟨"gone.swift".data, "G".data⟩ ::
            [⟨"B.swift".data, "H".data⟩])).groupChildren =
        (registerFiles letterIds fsWithoutGone cexDupText
          ([⟨"A.swift".data, "G".data⟩] ++ [⟨"B.swift".data, "H".data⟩])).groupChildren ∧
      (registerFiles letterIds fsWithoutGone cexDupText
          ([⟨"A.swift".data, "G".data⟩] ++ ⟨"gone.swift".data, "G".data⟩ ::
            [⟨"B.swift".data, "H".data⟩])).report =
        (registerFiles letterIds fsWithoutGone cexDupText
            ([⟨"A.swift".data, "G".data⟩] ++ [⟨"B.swift".data, "H".data⟩])).report.take 1 ++
          ReportEntry.warnedMissing "gone.swift".data ::
            (registerFiles letterIds fsWithoutGone cexDupText
              ([⟨"A.swift".data, "G".data⟩] ++ [⟨"B.swift".data, "H".data⟩])).report.drop 1 :=
  nonexistent_path_dropped _ _ _ [⟨"A.swift".data, "G".data⟩] _ _ (by decide)

end XcodeManifest
